import Mathlib

/-
A shallow embedding of migrate_db.py: a one-off SQLite migration script that
adds four Identity Server columns to the Users table of workbot.db, creates
three lookup indexes, backfills AuthenticationMethod, and reports progress on
the console.  Databases are modelled explicitly (named tables with a column
list and rows of nullable text cells, plus database-level indexes); the
script's control flow — the duplicate-column skip path, fatal errors, the
commit, the read-only verification queries, the try/except/finally around the
connection, and the interactive y/N confirmation — is modelled as total
functions over that state together with an event trace.
-/

namespace Workbot

/-- Python str.lower applied per character, as the script uses it on error
text (line 40 of migrate_db.py) and on the console response (line 106). -/
def lowerString (s : String) : String := ⟨s.data.map Char.toLower⟩

/-- The ASCII whitespace characters Python str.strip removes. -/
def pySpace (c : Char) : Bool :=
  c == ' ' || c == '\t' || c == '\n' || c == '\r' || c == '\x0b' || c == '\x0c'

/-- Python str.strip: drop whitespace from both ends of the string. -/
def stripString (s : String) : String :=
  ⟨((s.data.dropWhile pySpace).reverse.dropWhile pySpace).reverse⟩

/-- Does the second list start with the first? -/
def startsWithList : List Char → List Char → Bool
  | [], _ => true
  | _ :: _, [] => false
  | a :: as, b :: bs => a == b && startsWithList as bs

/-- Python substring containment, `pat in s`, over character lists. -/
def occursIn (pat : List Char) : List Char → Bool
  | [] => pat.isEmpty
  | c :: rest => startsWithList pat (c :: rest) || occursIn pat rest

/-- The element at position i, or d when the list is shorter. -/
def nth (d : α) : List α → Nat → α
  | [], _ => d
  | a :: _, 0 => a
  | _ :: as, n + 1 => nth d as n

/-- Replace the element at position i; out of range leaves the list unchanged. -/
def setVal : List α → Nat → α → List α
  | [], _, _ => []
  | _ :: as, 0, v => v :: as
  | a :: as, n + 1, v => a :: setVal as n v

/-- Position of the first element satisfying p. -/
def firstIdxWhere (p : α → Bool) : List α → Option Nat
  | [] => none
  | a :: as => if p a then some 0 else (firstIdxWhere p as).map (· + 1)

/-- A nullable text cell: none is SQL NULL. -/
abbrev Val := Option String

/-- One column of a table schema: name, declared type, NOT NULL flag and
DEFAULT clause.  The migration only ever declares TEXT columns. -/
structure Column where
  name : String
  type : String
  notNull : Bool
  dflt : Option String
  deriving DecidableEq

/-- A table: its schema and its rows, each row one cell per column. -/
structure Table where
  columns : List Column
  rows : List (List Val)
  deriving DecidableEq

/-- A named index on one column of one table; SQLite keeps index names in a
database-wide namespace. -/
structure DbIndex where
  name : String
  table : String
  column : String
  deriving DecidableEq

/-- The database file: named tables and indexes. -/
structure Database where
  tables : List (String × Table)
  indexes : List DbIndex
  deriving DecidableEq

/-- The first table of the list named n; SQLite resolves table names
case-insensitively. -/
def findTable : List (String × Table) → String → Option Table
  | [], _ => none
  | p :: ps, n => if lowerString p.1 == lowerString n then some p.2 else findTable ps n

/-- SQLite resolves table names case-insensitively: the first entry named n. -/
def lookupTable (db : Database) (n : String) : Option Table :=
  findTable db.tables n

/-- Replace the first entry named n (names are unique in a real database). -/
def updateFirst : List (String × Table) → String → Table → List (String × Table)
  | [], _, _ => []
  | p :: ps, n, t =>
    if lowerString p.1 == lowerString n then (p.1, t) :: ps else p :: updateFirst ps n t

/-- Write back the table named n. -/
def updateTable (db : Database) (n : String) (t : Table) : Database :=
  { db with tables := updateFirst db.tables n t }

/-- SQLite column names are case-insensitive. -/
def hasColumn (t : Table) (n : String) : Bool :=
  t.columns.any (fun c => lowerString c.name == lowerString n)

/-- Is there an index of this name anywhere in the database? -/
def hasIndexName (db : Database) (n : String) : Bool :=
  db.indexes.any (fun j => lowerString j.name == lowerString n)

/-- Record a new index. -/
def addIndex (db : Database) (ixName tbl col : String) : Database :=
  { db with indexes := db.indexes ++ [⟨ixName, tbl, col⟩] }

/-- ALTER TABLE ADD COLUMN: the column is appended to the schema and every
existing row takes its default value (NULL when the column has no DEFAULT). -/
def Table.addColumnImpl (t : Table) (c : Column) : Table :=
  { columns := t.columns ++ [c], rows := t.rows.map (fun r => r ++ [c.dflt]) }

/-- The backfill UPDATE's WHERE test: the cell IS NULL OR equals the empty
string (line 31 of migrate_db.py). -/
def isNullOrEmpty (v : Val) : Bool :=
  match v with
  | none => true
  | some s => s == ""

/-- Effect of the backfill UPDATE on one row, the target column at position i. -/
def backfillRow (i : Nat) (v : String) (r : List Val) : List Val :=
  if isNullOrEmpty (nth none r i) then setVal r i (some v) else r

/-- Effect of the backfill UPDATE on the whole table. -/
def backfillTable (t : Table) (i : Nat) (v : String) : Table :=
  { t with rows := t.rows.map (backfillRow i v) }

/-- The three statement shapes appearing in migration_commands
(migrate_db.py lines 23-32): ALTER TABLE tbl ADD COLUMN c;
CREATE INDEX IF NOT EXISTS ixName ON tbl (col); and
UPDATE tbl SET col = val WHERE col IS NULL OR col = the empty string. -/
inductive Cmd where
  | addColumn (tbl : String) (c : Column)
  | createIndex (ixName tbl col : String)
  | updateWhereNullOrEmpty (tbl col val : String)
  deriving DecidableEq

/-- The table a command targets. -/
def Cmd.table : Cmd → String
  | .addColumn t _ => t
  | .createIndex _ t _ => t
  | .updateWhereNullOrEmpty t _ _ => t

/-- An error as the script observes it: the exception class (OperationalError
against any other exception) together with str(e). -/
inductive SqlErr where
  | operational (msg : String)
  | otherExc (msg : String)
  deriving DecidableEq

/-- str(e) of the exception. -/
def SqlErr.message : SqlErr → String
  | .operational m => m
  | .otherExc m => m

/-- Line 40 of migrate_db.py: the error is skippable exactly when it is an
OperationalError whose text, lowercased, contains "duplicate column name". -/
def isDuplicateColumnError : SqlErr → Bool
  | .operational m => occursIn "duplicate column name".data (lowerString m).data
  | .otherExc _ => false

/-- cursor.execute of one migration command, with SQLite's behaviour on this
state model: ADD COLUMN fails on a missing table or an existing column name
(the duplicate column error); CREATE INDEX IF NOT EXISTS is a no-op when the
index name exists and otherwise needs the table and column; the UPDATE
rewrites every row whose target cell is NULL or empty. -/
def execCmd (db : Database) : Cmd → Except SqlErr Database
  | .addColumn tbl c =>
    match lookupTable db tbl with
    | none => .error (.operational ("no such table: " ++ tbl))
    | some t =>
      if hasColumn t c.name then
        .error (.operational ("duplicate column name: " ++ c.name))
      else
        .ok (updateTable db tbl (t.addColumnImpl c))
  | .createIndex ixName tbl col =>
    if hasIndexName db ixName then .ok db
    else
      match lookupTable db tbl with
      | none => .error (.operational ("no such table: " ++ tbl))
      | some t =>
        if hasColumn t col then .ok (addIndex db ixName tbl col)
        else .error (.operational ("no such column: " ++ col))
  | .updateWhereNullOrEmpty tbl col v =>
    match lookupTable db tbl with
    | none => .error (.operational ("no such table: " ++ tbl))
    | some t =>
      match firstIdxWhere (fun c => lowerString c.name == lowerString col) t.columns with
      | none => .error (.operational ("no such column: " ++ col))
      | some i => .ok (updateTable db tbl (backfillTable t i v))

/-- The observable connection-level actions of one run. -/
inductive Event where
  | openConn
  | closeConn
  | execStep (i : Nat)
  | commit
  deriving DecidableEq

/-- What the command loop produces: a fatal error when one occurred, the
database state reached, and the attempted steps in order. -/
structure LoopResult where
  err : Option SqlErr
  db : Database
  trace : List Event
  deriving DecidableEq

/-- The for-loop of lines 35-47: each command is attempted in order; a
duplicate-column OperationalError is skipped and the loop continues on the
unchanged state; any other error stops the loop at once (return False). -/
def runLoop (db : Database) (i : Nat) : List Cmd → LoopResult
  | [] => ⟨none, db, []⟩
  | c :: cs =>
    match execCmd db c with
    | .ok db1 =>
      let r := runLoop db1 (i + 1) cs
      ⟨r.err, r.db, .execStep i :: r.trace⟩
    | .error e =>
      if isDuplicateColumnError e then
        let r := runLoop db (i + 1) cs
        ⟨r.err, r.db, .execStep i :: r.trace⟩
      else ⟨some e, db, [.execStep i]⟩

/-- One loop iteration's effect on the state: some = the loop continues (the
command succeeded, or its duplicate-column error was skipped); none = fatal. -/
def stepState (db : Database) (c : Cmd) : Option Database :=
  match execCmd db c with
  | .ok db1 => some db1
  | .error e => if isDuplicateColumnError e then some db else none

/-- The verification queries of lines 53-72, all read-only: PRAGMA
table_info(Users) always succeeds; SELECT COUNT(*) FROM Users needs the
table; when the count is positive, SELECT Username, AuthenticationMethod
FROM Users LIMIT 5 needs both named columns.  An error here is caught by the
outer except clause, so migrate_database returns False. -/
def verifyPhase (db : Database) : Except SqlErr Unit :=
  match lookupTable db "Users" with
  | none => .error (.operational "no such table: Users")
  | some t =>
    if t.rows.length > 0 then
      if hasColumn t "Username" && hasColumn t "AuthenticationMethod" then .ok ()
      else .error (.operational "no such column: Username")
    else .ok ()

/-- How the call ends for the caller: a normal return value, or a propagated
exception named by its Python class. -/
inductive Outcome where
  | ret (b : Bool)
  | raised (exc : String)
  deriving DecidableEq

/-- The environment of one run: whether os.path.exists finds workbot.db,
whether sqlite3.connect succeeds on it (it raises, for instance, when
workbot.db exists but is a directory), and the database contents. -/
structure World where
  fileExists : Bool
  connects : Bool
  db : Database
  deriving DecidableEq

/-- What a run of migrate_database leaves behind. -/
structure MigResult where
  outcome : Outcome
  trace : List Event
  db : Database
  deriving DecidableEq

/-- The four columns the migration adds (migrate_db.py lines 24-27). -/
def displayNameCol : Column := ⟨"DisplayName", "TEXT", false, none⟩

/-- ExternalId TEXT NULL. -/
def externalIdCol : Column := ⟨"ExternalId", "TEXT", false, none⟩

/-- EmployeeId TEXT NULL. -/
def employeeIdCol : Column := ⟨"EmployeeId", "TEXT", false, none⟩

/-- AuthenticationMethod TEXT NOT NULL DEFAULT Local. -/
def authMethodCol : Column := ⟨"AuthenticationMethod", "TEXT", true, some "Local"⟩

/-- The columns added by the four ALTER TABLE statements, in order. -/
def migrationCols : List Column := [displayNameCol, externalIdCol, employeeIdCol, authMethodCol]

/-- migration_commands, lines 23-32 of migrate_db.py: four ALTER TABLE ADD
COLUMN statements, three CREATE INDEX IF NOT EXISTS statements, and the
backfill UPDATE, all on the Users table. -/
def migration_commands : List Cmd :=
  [ .addColumn "Users" displayNameCol,
    .addColumn "Users" externalIdCol,
    .addColumn "Users" employeeIdCol,
    .addColumn "Users" authMethodCol,
    .createIndex "IX_Users_ExternalId" "Users" "ExternalId",
    .createIndex "IX_Users_EmployeeId" "Users" "EmployeeId",
    .createIndex "IX_Users_AuthenticationMethod" "Users" "AuthenticationMethod",
    .updateWhereNullOrEmpty "Users" "AuthenticationMethod" "Local" ]

/-- migrate_database (lines 4-84).  Missing file: print and return False
before any connection.  Connect failure: the except clause catches the error
and would return False, but the finally block then evaluates `if conn:` with
the local conn never assigned, so UnboundLocalError propagates to the caller.
Otherwise the loop runs; on a fatal step error the function returns False
with the connection closed and conn.commit() never reached (the ALTER and
CREATE INDEX statements already executed were run by sqlite3 in autocommit
mode, so the state reached persists).  On loop success the changes are
committed and the read-only verification runs: True when it succeeds, False
when one of its queries raises. -/
def migrate_database (w : World) : MigResult :=
  if w.fileExists = false then ⟨.ret false, [], w.db⟩
  else if w.connects = false then ⟨.raised "UnboundLocalError", [], w.db⟩
  else
    let r := runLoop w.db 1 migration_commands
    match r.err with
    | some _ => ⟨.ret false, .openConn :: (r.trace ++ [.closeConn]), r.db⟩
    | none =>
      match verifyPhase r.db with
      | .ok _ => ⟨.ret true, .openConn :: (r.trace ++ [.commit, .closeConn]), r.db⟩
      | .error _ => ⟨.ret false, .openConn :: (r.trace ++ [.commit, .closeConn]), r.db⟩

/-- Line 106: response.strip().lower(). -/
def normalizeResponse (s : String) : String := lowerString (stripString s)

/-- What the __main__ block produces: the migration run when one happened,
the closing console messages of lines 108-116, and the final database. -/
structure MainResult where
  migration : Option MigResult
  output : List String
  db : Database
  deriving DecidableEq

/-- Lines 106-116 of migrate_db.py: the migration runs only when the
stripped, lowercased response is y or yes; otherwise the script prints
Migration cancelled and touches nothing.  When migrate_database raises, the
epilogue lines are never reached. -/
def main_dispatch (w : World) (response : String) : MainResult :=
  let r := normalizeResponse response
  if r == "y" || r == "yes" then
    let m := migrate_database w
    let out :=
      match m.outcome with
      | .ret true => ["🎉 Migration completed successfully!",
                      "You can now continue with the Identity Server setup."]
      | .ret false => ["❌ Migration failed. Please check the errors above."]
      | .raised _ => []
    ⟨some m, out, m.db⟩
  else ⟨none, ["Migration cancelled."], w.db⟩

/-- Representation invariant of a real SQLite table: every row has exactly
one cell per column. -/
def Table.wf (t : Table) : Bool := t.rows.all (fun r => r.length == t.columns.length)

/-- Representation invariant of a real database. -/
def dbWf (db : Database) : Bool := db.tables.all (fun p => p.2.wf)

/-- The step events i, i+1, ..., i+k-1 in order. -/
def stepsFrom (i : Nat) : Nat → List Event
  | 0 => []
  | k + 1 => .execStep i :: stepsFrom (i + 1) k

/-- Placeholder entry for positional access to the table list. -/
def defaultEntry : String × Table := ("", ⟨[], []⟩)

/-- The table lists agree except possibly at entries named Users: same names
in the same order, and every entry not named Users is unchanged. -/
def tablesAgree (old new : List (String × Table)) : Prop :=
  new.map Prod.fst = old.map Prod.fst ∧
  ∀ k, k < old.length →
    (lowerString (nth defaultEntry old k).1 == lowerString "Users") = false →
    nth defaultEntry new k = nth defaultEntry old k

/-- A run only ever touches the Users table: every other table entry is
unchanged and every index added is an index on Users. -/
def framePreserved (old new : Database) : Prop :=
  tablesAgree old.tables new.tables ∧
  ∃ added, new.indexes = old.indexes ++ added ∧ ∀ j ∈ added, j.table = "Users"

/-- A small concrete database for witnesses: a Users table with a Username
column and one user row. -/
def usersTable0 : Table := ⟨[⟨"Username", "TEXT", false, none⟩], [[some "alice"]]⟩

/-- Witness database holding usersTable0. -/
def db0 : Database := ⟨[("Users", usersTable0)], []⟩

/-- Witness world: file present, connection fine. -/
def world0 : World := ⟨true, true, db0⟩

/-- A database with no Users table at all: step 1 fails fatally. -/
def dbNoUsers : Database := ⟨[("Jobs", ⟨[⟨"Id", "INTEGER", true, none⟩], []⟩)], []⟩

/-- Witness world whose migration hits a fatal error at step 1. -/
def worldNoUsers : World := ⟨true, true, dbNoUsers⟩

/-- Table t1 is t0 with the columns cs appended, every existing row extended
with their default values — the accumulated effect of ADD COLUMN steps. -/
def TableExtends (t0 t1 : Table) (cs : List Column) : Prop :=
  t1.columns = t0.columns ++ cs ∧
  t1.rows = t0.rows.map (fun r => r ++ cs.map Column.dflt)

/-- What a second run on the state db1 left by a successful first run does:
it succeeds, it leaves the database exactly as it was, each of the four ADD
COLUMN steps raises a duplicate-column error that the loop classifies as
skippable, and each of the three CREATE INDEX IF NOT EXISTS steps and the
backfill UPDATE executes successfully without changing the state. -/
def C1Post (w : World) : Prop :=
  (migrate_database { w with db := (migrate_database w).db }).outcome = .ret true ∧
  (migrate_database { w with db := (migrate_database w).db }).db = (migrate_database w).db ∧
  (execCmd (migrate_database w).db (.addColumn "Users" displayNameCol) =
      .error (.operational "duplicate column name: DisplayName") ∧
    execCmd (migrate_database w).db (.addColumn "Users" externalIdCol) =
      .error (.operational "duplicate column name: ExternalId") ∧
    execCmd (migrate_database w).db (.addColumn "Users" employeeIdCol) =
      .error (.operational "duplicate column name: EmployeeId") ∧
    execCmd (migrate_database w).db (.addColumn "Users" authMethodCol) =
      .error (.operational "duplicate column name: AuthenticationMethod")) ∧
  (isDuplicateColumnError (.operational "duplicate column name: DisplayName") = true ∧
    isDuplicateColumnError (.operational "duplicate column name: ExternalId") = true ∧
    isDuplicateColumnError (.operational "duplicate column name: EmployeeId") = true ∧
    isDuplicateColumnError (.operational "duplicate column name: AuthenticationMethod") = true) ∧
  (execCmd (migrate_database w).db (.createIndex "IX_Users_ExternalId" "Users" "ExternalId") =
      .ok (migrate_database w).db ∧
    execCmd (migrate_database w).db (.createIndex "IX_Users_EmployeeId" "Users" "EmployeeId") =
      .ok (migrate_database w).db ∧
    execCmd (migrate_database w).db
        (.createIndex "IX_Users_AuthenticationMethod" "Users" "AuthenticationMethod") =
      .ok (migrate_database w).db ∧
    execCmd (migrate_database w).db
        (.updateWhereNullOrEmpty "Users" "AuthenticationMethod" "Local") =
      .ok (migrate_database w).db)

/-- What a successful run guarantees about the rows of the Users table: with
the AuthenticationMethod column at position i of the final schema, every row
whose cell there started NULL or empty ends backfilled to Local, every other
row keeps its cell, and no final cell is NULL or empty. -/
def C5Post (dbStart dbEnd : Database) : Prop :=
  ∃ t t2 i,
    lookupTable dbStart "Users" = some t ∧
    lookupTable dbEnd "Users" = some t2 ∧
    t2.rows.length = t.rows.length ∧
    firstIdxWhere (fun c => lowerString c.name == lowerString "AuthenticationMethod")
      t2.columns = some i ∧
    ∀ k, k < t2.rows.length →
      (isNullOrEmpty (nth none (nth [] t.rows k) i) = true →
        nth none (nth [] t2.rows k) i = some "Local") ∧
      (isNullOrEmpty (nth none (nth [] t.rows k) i) = false →
        nth none (nth [] t2.rows k) i = nth none (nth [] t.rows k) i) ∧
      isNullOrEmpty (nth none (nth [] t2.rows k) i) = false

/-! ### Helper lemmas: positional list access -/

theorem nth_oob (d : α) (l : List α) (i : Nat) (h : l.length ≤ i) : nth d l i = d := by
  induction l generalizing i with
  | nil => rfl
  | cons a as ih =>
    cases i with
    | zero => simp at h
    | succ n => exact ih n (Nat.le_of_succ_le_succ h)

theorem nth_append_left (d : α) (l m : List α) (i : Nat) (h : i < l.length) :
    nth d (l ++ m) i = nth d l i := by
  induction l generalizing i with
  | nil => simp at h
  | cons a as ih =>
    cases i with
    | zero => rfl
    | succ n => exact ih n (Nat.lt_of_succ_lt_succ h)

theorem nth_append_right (d : α) (l m : List α) (j : Nat) :
    nth d (l ++ m) (l.length + j) = nth d m j := by
  induction l with
  | nil => simp only [List.nil_append, List.length_nil, Nat.zero_add]
  | cons a as ih =>
    have harith : as.length + 1 + j = (as.length + j) + 1 := by omega
    rw [List.cons_append, List.length_cons, harith]
    exact ih

theorem nth_map (f : α → β) (d : β) (d0 : α) (l : List α) (k : Nat) (h : k < l.length) :
    nth d (l.map f) k = f (nth d0 l k) := by
  induction l generalizing k with
  | nil => simp at h
  | cons a as ih =>
    cases k with
    | zero => rfl
    | succ n => exact ih n (Nat.lt_of_succ_lt_succ h)

theorem nth_mem (d : α) (l : List α) (k : Nat) (h : k < l.length) : nth d l k ∈ l := by
  induction l generalizing k with
  | nil => simp at h
  | cons a as ih =>
    cases k with
    | zero => exact List.mem_cons_self a as
    | succ n => exact List.mem_cons_of_mem a (ih n (Nat.lt_of_succ_lt_succ h))

theorem length_setVal (l : List α) (i : Nat) (v : α) : (setVal l i v).length = l.length := by
  induction l generalizing i with
  | nil => rfl
  | cons a as ih =>
    cases i with
    | zero => rfl
    | succ n => simp [setVal, ih]

theorem nth_setVal_eq (d : α) (l : List α) (i : Nat) (v : α) (h : i < l.length) :
    nth d (setVal l i v) i = v := by
  induction l generalizing i with
  | nil => simp at h
  | cons a as ih =>
    cases i with
    | zero => rfl
    | succ n => exact ih n (Nat.lt_of_succ_lt_succ h)

theorem setVal_setVal_same (l : List α) (i : Nat) (v : α) :
    setVal (setVal l i v) i v = setVal l i v := by
  induction l generalizing i with
  | nil => rfl
  | cons a as ih =>
    cases i with
    | zero => rfl
    | succ n => simp [setVal, ih]

theorem firstIdxWhere_spec (p : α → Bool) (d : α) (l : List α) (j : Nat)
    (h : firstIdxWhere p l = some j) : j < l.length ∧ p (nth d l j) = true := by
  induction l generalizing j with
  | nil => simp [firstIdxWhere] at h
  | cons a as ih =>
    by_cases hp : p a = true
    · simp [firstIdxWhere, hp] at h
      subst h
      exact ⟨Nat.succ_pos _, hp⟩
    · simp [firstIdxWhere, hp] at h
      obtain ⟨j1, hj1, rfl⟩ := h
      obtain ⟨hlt, hval⟩ := ih j1 hj1
      exact ⟨Nat.succ_lt_succ hlt, hval⟩

theorem firstIdxWhere_append_cases (p : α → Bool) (l m : List α) (i : Nat)
    (h : firstIdxWhere p (l ++ m) = some i) :
    firstIdxWhere p l = some i ∨
    (firstIdxWhere p l = none ∧ ∃ j, firstIdxWhere p m = some j ∧ i = l.length + j) := by
  induction l generalizing i with
  | nil =>
    right
    exact ⟨rfl, i, h, by simp⟩
  | cons a as ih =>
    by_cases hp : p a = true
    · left
      simp [firstIdxWhere, hp] at h ⊢
      omega
    · simp only [List.cons_append, firstIdxWhere, hp, if_false, Bool.false_eq_true,
        if_neg] at h ⊢
      rw [Option.map_eq_some'] at h
      obtain ⟨i1, hi1, rfl⟩ := h
      rcases ih i1 hi1 with hleft | ⟨hnone, j, hj, rfl⟩
      · left
        rw [hleft]
        rfl
      · right
        refine ⟨by rw [hnone]; rfl, j, hj, by simp [List.length_cons]; omega⟩

/-! ### Helper lemmas: substring search -/

theorem startsWithList_append (pat x : List Char) : startsWithList pat (pat ++ x) = true := by
  induction pat with
  | nil => rfl
  | cons a as ih => simp [startsWithList, ih]

theorem occursIn_of_starts (pat l : List Char) (h : startsWithList pat l = true) :
    occursIn pat l = true := by
  cases l with
  | nil =>
    cases pat with
    | nil => rfl
    | cons a as => simp [startsWithList] at h
  | cons c rest => simp [occursIn, h]

/-- The script's substring test accepts every message of the form
"duplicate column name: X", whatever the column name X. -/
theorem isDup_dupMsg (s : String) :
    isDuplicateColumnError (.operational ("duplicate column name: " ++ s)) = true := by
  have h1 : ("duplicate column name: " ++ s).data = "duplicate column name: ".data ++ s.data :=
    String.data_append _ _
  have h2 : "duplicate column name: ".data.map Char.toLower = "duplicate column name: ".data := by
    decide
  have hdata : (lowerString ("duplicate column name: " ++ s)).data =
      "duplicate column name: ".data ++ s.data.map Char.toLower := by
    simp [lowerString, h1, List.map_append, h2]
  have hsplit : "duplicate column name: ".data =
      "duplicate column name".data ++ [':', ' '] := by decide
  show occursIn "duplicate column name".data
    (lowerString ("duplicate column name: " ++ s)).data = true
  rw [hdata, hsplit, List.append_assoc]
  exact occursIn_of_starts _ _ (startsWithList_append _ _)

/-! ### Helper lemmas: the database state model -/

theorem findTable_updateFirst (l : List (String × Table)) (n : String) (t0 t : Table)
    (h : findTable l n = some t0) : findTable (updateFirst l n t) n = some t := by
  induction l with
  | nil => simp [findTable] at h
  | cons p ps ih =>
    by_cases hp : (lowerString p.1 == lowerString n) = true
    · simp [findTable, updateFirst, hp]
    · simp only [findTable, updateFirst, hp, if_neg, Bool.false_eq_true, if_false] at h ⊢
      exact ih h

theorem lookupTable_updateTable (db : Database) (n : String) (t0 t : Table)
    (h : lookupTable db n = some t0) : lookupTable (updateTable db n t) n = some t :=
  findTable_updateFirst _ _ _ _ h

theorem updateFirst_self (l : List (String × Table)) (n : String) (t : Table)
    (h : findTable l n = some t) : updateFirst l n t = l := by
  induction l with
  | nil => rfl
  | cons p ps ih =>
    by_cases hp : (lowerString p.1 == lowerString n) = true
    · simp only [findTable, hp, if_true, Option.some.injEq] at h
      subst h
      simp [updateFirst, hp]
    · simp only [findTable, hp, Bool.false_eq_true, if_false] at h
      simp [updateFirst, hp, ih h]

theorem updateTable_self (db : Database) (n : String) (t : Table)
    (h : lookupTable db n = some t) : updateTable db n t = db := by
  show ({ db with tables := updateFirst db.tables n t } : Database) = db
  rw [updateFirst_self db.tables n t h]

theorem lookupTable_addIndex (db : Database) (a b c n : String) :
    lookupTable (addIndex db a b c) n = lookupTable db n := rfl

theorem findTable_mem (l : List (String × Table)) (n : String) (t : Table)
    (h : findTable l n = some t) : ∃ nm, (nm, t) ∈ l := by
  induction l with
  | nil => simp [findTable] at h
  | cons p ps ih =>
    by_cases hp : (lowerString p.1 == lowerString n) = true
    · simp only [findTable, hp, if_true, Option.some.injEq] at h
      refine ⟨p.1, ?_⟩
      have hpt : (p.1, t) = p := by rw [← h]
      rw [hpt]
      exact List.mem_cons_self p ps
    · simp only [findTable, hp, Bool.false_eq_true, if_false] at h
      obtain ⟨nm, hm⟩ := ih h
      exact ⟨nm, List.mem_cons_of_mem p hm⟩

theorem hasIndexName_updateTable (db : Database) (n : String) (t : Table) (m : String) :
    hasIndexName (updateTable db n t) m = hasIndexName db m := rfl

theorem hasIndexName_addIndex_self (db : Database) (ix tbl col : String) :
    hasIndexName (addIndex db ix tbl col) ix = true := by
  simp [hasIndexName, addIndex, List.any_append]

theorem hasIndexName_addIndex_of (db : Database) (ix tbl col n : String)
    (h : hasIndexName db n = true) : hasIndexName (addIndex db ix tbl col) n = true := by
  simp only [hasIndexName, addIndex, List.any_append] at h ⊢
  simp [h]

theorem hasColumn_addColumnImpl_self (t : Table) (c : Column) :
    hasColumn (t.addColumnImpl c) c.name = true := by
  simp [hasColumn, Table.addColumnImpl, List.any_append]

theorem hasColumn_addColumnImpl_of (t : Table) (c : Column) (n : String)
    (h : hasColumn t n = true) : hasColumn (t.addColumnImpl c) n = true := by
  simp only [hasColumn, Table.addColumnImpl, List.any_append] at h ⊢
  simp [h]

theorem hasColumn_backfillTable (t : Table) (i : Nat) (v : String) (n : String) :
    hasColumn (backfillTable t i v) n = hasColumn t n := rfl

theorem backfillRow_idem (i : Nat) (v : String) (r : List Val) :
    backfillRow i v (backfillRow i v r) = backfillRow i v r := by
  unfold backfillRow
  by_cases h : isNullOrEmpty (nth none r i) = true
  · rw [if_pos h]
    by_cases h2 : isNullOrEmpty (nth none (setVal r i (some v)) i) = true
    · rw [if_pos h2, setVal_setVal_same]
    · rw [if_neg h2]
  · rw [if_neg h, if_neg h]

theorem backfillTable_idem (t : Table) (i : Nat) (v : String) :
    backfillTable (backfillTable t i v) i v = backfillTable t i v := by
  have hrows : (t.rows.map (backfillRow i v)).map (backfillRow i v) =
      t.rows.map (backfillRow i v) := by
    rw [List.map_map]
    exact List.map_congr_left (fun a _ => backfillRow_idem i v a)
  show Table.mk t.columns ((t.rows.map (backfillRow i v)).map (backfillRow i v)) =
    Table.mk t.columns (t.rows.map (backfillRow i v))
  rw [hrows]

theorem tableExtends_refl (t : Table) : TableExtends t t [] := by
  constructor
  · simp
  · simp

theorem tableExtends_add (t0 t1 : Table) (cs : List Column) (c : Column)
    (h : TableExtends t0 t1 cs) : TableExtends t0 (t1.addColumnImpl c) (cs ++ [c]) := by
  obtain ⟨hc, hr⟩ := h
  constructor
  · show t1.columns ++ [c] = t0.columns ++ (cs ++ [c])
    rw [hc, List.append_assoc]
  · show t1.rows.map (fun r => r ++ [c.dflt]) =
      t0.rows.map (fun r => r ++ (cs ++ [c]).map Column.dflt)
    rw [hr, List.map_map]
    exact List.map_congr_left (fun r _ => by simp [List.map_append, List.append_assoc])

/-! ### Helper lemmas: one step of the command loop -/

theorem stepState_addUsers_inv (db db1 : Database) (c : Column) (t0 t : Table)
    (cs : List Column)
    (hc : c ∈ migrationCols)
    (hlk : lookupTable db "Users" = some t)
    (hext : TableExtends t0 t cs)
    (hmem : ∀ x ∈ cs, x ∈ migrationCols)
    (h : stepState db (.addColumn "Users" c) = some db1) :
    ∃ t1 cs1, lookupTable db1 "Users" = some t1 ∧ TableExtends t0 t1 cs1 ∧
      (∀ x ∈ cs1, x ∈ migrationCols) ∧
      hasColumn t1 c.name = true ∧
      (∀ n, hasColumn t n = true → hasColumn t1 n = true) ∧
      (∀ n, hasIndexName db n = true → hasIndexName db1 n = true) := by
  by_cases hcol : hasColumn t c.name = true
  · have hred : stepState db (.addColumn "Users" c) = some db := by
      simp [stepState, execCmd, hlk, hcol, isDup_dupMsg]
    rw [hred] at h
    injection h with h
    subst h
    exact ⟨t, cs, hlk, hext, hmem, hcol, fun n hn => hn, fun n hn => hn⟩
  · rw [Bool.not_eq_true] at hcol
    have hred : stepState db (.addColumn "Users" c) =
        some (updateTable db "Users" (t.addColumnImpl c)) := by
      simp [stepState, execCmd, hlk, hcol]
    rw [hred] at h
    injection h with h
    subst h
    refine ⟨t.addColumnImpl c, cs ++ [c],
      lookupTable_updateTable db "Users" t _ hlk,
      tableExtends_add _ _ _ _ hext, ?_,
      hasColumn_addColumnImpl_self t c,
      fun n hn => hasColumn_addColumnImpl_of t c n hn,
      fun n hn => by rw [hasIndexName_updateTable]; exact hn⟩
    intro x hx
    rcases List.mem_append.mp hx with hx | hx
    · exact hmem x hx
    · rw [List.mem_singleton.mp hx]
      exact hc

theorem stepState_createIndex_users_inv (db db1 : Database) (ix col : String) (t : Table)
    (hnc : isDuplicateColumnError (.operational ("no such column: " ++ col)) = false)
    (hlk : lookupTable db "Users" = some t)
    (h : stepState db (.createIndex ix "Users" col) = some db1) :
    lookupTable db1 "Users" = some t ∧
    hasIndexName db1 ix = true ∧
    (∀ n, hasIndexName db n = true → hasIndexName db1 n = true) ∧
    db1.tables = db.tables := by
  by_cases hix : hasIndexName db ix = true
  · have hred : stepState db (.createIndex ix "Users" col) = some db := by
      simp [stepState, execCmd, hix]
    rw [hred] at h
    injection h with h
    subst h
    exact ⟨hlk, hix, fun n hn => hn, rfl⟩
  · rw [Bool.not_eq_true] at hix
    cases hcol : hasColumn t col with
    | false =>
      have hred : stepState db (.createIndex ix "Users" col) = none := by
        simp [stepState, execCmd, hix, hlk, hcol, hnc]
      rw [hred] at h
      exact absurd h (by simp)
    | true =>
      have hred : stepState db (.createIndex ix "Users" col) =
          some (addIndex db ix "Users" col) := by
        simp [stepState, execCmd, hix, hlk, hcol]
      rw [hred] at h
      injection h with h
      subst h
      refine ⟨by rw [lookupTable_addIndex]; exact hlk,
        hasIndexName_addIndex_self db ix "Users" col,
        fun n hn => hasIndexName_addIndex_of db ix "Users" col n hn, rfl⟩

theorem stepState_update_users_inv (db db1 : Database) (col v : String) (t : Table)
    (hnc : isDuplicateColumnError (.operational ("no such column: " ++ col)) = false)
    (hlk : lookupTable db "Users" = some t)
    (h : stepState db (.updateWhereNullOrEmpty "Users" col v) = some db1) :
    ∃ i, firstIdxWhere (fun c => lowerString c.name == lowerString col) t.columns = some i ∧
      db1 = updateTable db "Users" (backfillTable t i v) := by
  cases hfi : firstIdxWhere (fun c => lowerString c.name == lowerString col) t.columns with
  | none =>
    have hred : stepState db (.updateWhereNullOrEmpty "Users" col v) = none := by
      simp [stepState, execCmd, hlk, hfi, hnc]
    rw [hred] at h
    exact absurd h (by simp)
  | some i =>
    have hred : stepState db (.updateWhereNullOrEmpty "Users" col v) =
        some (updateTable db "Users" (backfillTable t i v)) := by
      simp [stepState, execCmd, hlk, hfi]
    rw [hred] at h
    injection h with h
    exact ⟨i, rfl, h.symm⟩

/-! ### Helper lemmas: the command loop -/

theorem runLoop_cons_succ (db : Database) (i : Nat) (c : Cmd) (cs : List Cmd)
    (h : (runLoop db i (c :: cs)).err = none) :
    ∃ db1, stepState db c = some db1 ∧
      (runLoop db1 (i + 1) cs).err = none ∧
      (runLoop db i (c :: cs)).db = (runLoop db1 (i + 1) cs).db := by
  cases hx : execCmd db c with
  | ok db1 =>
    refine ⟨db1, by simp [stepState, hx], ?_, ?_⟩
    · simp [runLoop, hx] at h
      exact h
    · simp [runLoop, hx]
  | error e =>
    cases hd : isDuplicateColumnError e with
    | true =>
      refine ⟨db, by simp [stepState, hx, hd], ?_, ?_⟩
      · simp [runLoop, hx, hd] at h
        exact h
      · simp [runLoop, hx, hd]
    | false =>
      simp [runLoop, hx, hd] at h

theorem runLoop_skip_step (db : Database) (i : Nat) (c : Cmd) (cs : List Cmd) (e : SqlErr)
    (hx : execCmd db c = .error e) (hd : isDuplicateColumnError e = true) :
    runLoop db i (c :: cs) =
      ⟨(runLoop db (i + 1) cs).err, (runLoop db (i + 1) cs).db,
        .execStep i :: (runLoop db (i + 1) cs).trace⟩ := by
  simp [runLoop, hx, hd]

theorem runLoop_ok_step (db db1 : Database) (i : Nat) (c : Cmd) (cs : List Cmd)
    (hx : execCmd db c = .ok db1) :
    runLoop db i (c :: cs) =
      ⟨(runLoop db1 (i + 1) cs).err, (runLoop db1 (i + 1) cs).db,
        .execStep i :: (runLoop db1 (i + 1) cs).trace⟩ := by
  simp [runLoop, hx]

theorem runLoop_trace_spec (db : Database) (i : Nat) (cs : List Cmd) :
    ∃ k, k ≤ cs.length ∧ (runLoop db i cs).trace = stepsFrom i k ∧
      ((runLoop db i cs).err = none → k = cs.length) ∧
      ((runLoop db i cs).err ≠ none → 1 ≤ k) := by
  induction cs generalizing db i with
  | nil => exact ⟨0, by simp, rfl, fun _ => rfl, fun hne => absurd rfl hne⟩
  | cons c cs ih =>
    cases hx : execCmd db c with
    | ok db1 =>
      obtain ⟨k, hk, htr, hnone, hsome⟩ := ih db1 (i + 1)
      refine ⟨k + 1, by simp only [List.length_cons]; omega, ?_, ?_, ?_⟩
      · simp [runLoop, hx, stepsFrom, htr]
      · intro hn
        simp only [runLoop, hx] at hn
        simp only [List.length_cons]
        rw [hnone hn]
      · intro _
        omega
    | error e =>
      cases hd : isDuplicateColumnError e with
      | true =>
        obtain ⟨k, hk, htr, hnone, hsome⟩ := ih db (i + 1)
        refine ⟨k + 1, by simp only [List.length_cons]; omega, ?_, ?_, ?_⟩
        · simp [runLoop, hx, hd, stepsFrom, htr]
        · intro hn
          simp only [runLoop, hx, hd] at hn
          simp only [List.length_cons]
          rw [hnone hn]
        · intro _
          omega
      | false =>
        refine ⟨1, by simp only [List.length_cons]; omega, ?_, ?_, ?_⟩
        · simp [runLoop, hx, hd, stepsFrom]
        · intro hn
          simp [runLoop, hx, hd] at hn
        · intro _
          exact Nat.le_refl 1

theorem mem_stepsFrom (e : Event) (i k : Nat) (h : e ∈ stepsFrom i k) :
    ∃ j, e = .execStep j := by
  induction k generalizing i with
  | zero => simp [stepsFrom] at h
  | succ n ih =>
    simp only [stepsFrom, List.mem_cons] at h
    rcases h with rfl | h
    · exact ⟨i, rfl⟩
    · exact ih (i + 1) h

/-! ### Helper lemmas: the whole run -/

theorem migrate_true_elim (w : World) (h : (migrate_database w).outcome = .ret true) :
    w.fileExists = true ∧ w.connects = true ∧
    (runLoop w.db 1 migration_commands).err = none ∧
    verifyPhase (runLoop w.db 1 migration_commands).db = .ok () ∧
    (migrate_database w).db = (runLoop w.db 1 migration_commands).db ∧
    (migrate_database w).trace =
      .openConn :: ((runLoop w.db 1 migration_commands).trace ++ [.commit, .closeConn]) := by
  cases hf : w.fileExists with
  | false => simp [migrate_database, hf] at h
  | true =>
    cases hc : w.connects with
    | false => simp [migrate_database, hf, hc] at h
    | true =>
      cases he : (runLoop w.db 1 migration_commands).err with
      | some e => simp [migrate_database, hf, hc, he] at h
      | none =>
        cases hv : verifyPhase (runLoop w.db 1 migration_commands).db with
        | error e => simp [migrate_database, hf, hc, he, hv] at h
        | ok u =>
          cases u
          exact ⟨rfl, rfl, rfl, rfl, by simp [migrate_database, hf, hc, he, hv],
            by simp [migrate_database, hf, hc, he, hv]⟩

theorem migrate_true_intro (w : World) (hf : w.fileExists = true) (hc : w.connects = true)
    (he : (runLoop w.db 1 migration_commands).err = none)
    (hv : verifyPhase (runLoop w.db 1 migration_commands).db = .ok ()) :
    (migrate_database w).outcome = .ret true ∧
    (migrate_database w).db = (runLoop w.db 1 migration_commands).db := by
  constructor <;> simp [migrate_database, hf, hc, he, hv]

theorem migrate_fatal_eq (w : World) (hf : w.fileExists = true) (hc : w.connects = true)
    (e : SqlErr) (he : (runLoop w.db 1 migration_commands).err = some e) :
    migrate_database w = ⟨.ret false,
      .openConn :: ((runLoop w.db 1 migration_commands).trace ++ [.closeConn]),
      (runLoop w.db 1 migration_commands).db⟩ := by
  simp [migrate_database, hf, hc, he]

theorem stepState_addUsers_lookup (db db1 : Database) (c : Column)
    (h : stepState db (.addColumn "Users" c) = some db1) :
    ∃ t, lookupTable db "Users" = some t := by
  cases hlk : lookupTable db "Users" with
  | some t => exact ⟨t, rfl⟩
  | none =>
    have hno : isDuplicateColumnError (.operational "no such table: Users") = false := by
      decide
    have hred : stepState db (.addColumn "Users" c) = none := by
      simp [stepState, execCmd, hlk, hno]
    rw [hred] at h
    exact absurd h (by simp)

/-- What a loop run with no fatal error guarantees: the Users table existed
at the start; after the four ADD COLUMN steps it carries all four column
names and is the original table extended by some subset of the migration
columns; the backfill UPDATE found the AuthenticationMethod column at some
position i of that schema; and the final state has the three indexes and
the backfilled Users table. -/
theorem run_success_spec (db : Database)
    (h : (runLoop db 1 migration_commands).err = none) :
    ∃ t t4 cs i,
      lookupTable db "Users" = some t ∧
      TableExtends t t4 cs ∧
      (∀ c ∈ cs, c ∈ migrationCols) ∧
      hasColumn t4 "DisplayName" = true ∧
      hasColumn t4 "ExternalId" = true ∧
      hasColumn t4 "EmployeeId" = true ∧
      hasColumn t4 "AuthenticationMethod" = true ∧
      firstIdxWhere (fun c => lowerString c.name == lowerString "AuthenticationMethod")
        t4.columns = some i ∧
      hasIndexName (runLoop db 1 migration_commands).db "IX_Users_ExternalId" = true ∧
      hasIndexName (runLoop db 1 migration_commands).db "IX_Users_EmployeeId" = true ∧
      hasIndexName (runLoop db 1 migration_commands).db "IX_Users_AuthenticationMethod" = true ∧
      lookupTable (runLoop db 1 migration_commands).db "Users" =
        some (backfillTable t4 i "Local") := by
  have hncE : isDuplicateColumnError (.operational ("no such column: " ++ "ExternalId")) = false := by
    decide
  have hncM : isDuplicateColumnError (.operational ("no such column: " ++ "EmployeeId")) = false := by
    decide
  have hncA : isDuplicateColumnError
      (.operational ("no such column: " ++ "AuthenticationMethod")) = false := by
    decide
  simp only [migration_commands] at h
  obtain ⟨db1, hs1, h1, hdb1⟩ := runLoop_cons_succ _ _ _ _ h
  obtain ⟨db2, hs2, h2, hdb2⟩ := runLoop_cons_succ _ _ _ _ h1
  obtain ⟨db3, hs3, h3, hdb3⟩ := runLoop_cons_succ _ _ _ _ h2
  obtain ⟨db4, hs4, h4, hdb4⟩ := runLoop_cons_succ _ _ _ _ h3
  obtain ⟨db5, hs5, h5, hdb5⟩ := runLoop_cons_succ _ _ _ _ h4
  obtain ⟨db6, hs6, h6, hdb6⟩ := runLoop_cons_succ _ _ _ _ h5
  obtain ⟨db7, hs7, h7, hdb7⟩ := runLoop_cons_succ _ _ _ _ h6
  obtain ⟨db8, hs8, h8, hdb8⟩ := runLoop_cons_succ _ _ _ _ h7
  obtain ⟨t, hlk0⟩ := stepState_addUsers_lookup _ _ _ hs1
  obtain ⟨t1, cs1, hlk1, hext1, hmem1, hself1, hcm1, him1⟩ :=
    stepState_addUsers_inv db db1 displayNameCol t t [] (by simp [migrationCols])
      hlk0 (tableExtends_refl t) (by simp) hs1
  obtain ⟨t2, cs2, hlk2, hext2, hmem2, hself2, hcm2, him2⟩ :=
    stepState_addUsers_inv db1 db2 externalIdCol t t1 cs1 (by simp [migrationCols])
      hlk1 hext1 hmem1 hs2
  obtain ⟨t3, cs3, hlk3, hext3, hmem3, hself3, hcm3, him3⟩ :=
    stepState_addUsers_inv db2 db3 employeeIdCol t t2 cs2 (by simp [migrationCols])
      hlk2 hext2 hmem2 hs3
  obtain ⟨t4, cs4, hlk4, hext4, hmem4, hself4, hcm4, him4⟩ :=
    stepState_addUsers_inv db3 db4 authMethodCol t t3 cs3 (by simp [migrationCols])
      hlk3 hext3 hmem3 hs4
  have hd4 : hasColumn t4 "DisplayName" = true := hcm4 _ (hcm3 _ (hcm2 _ hself1))
  have he4 : hasColumn t4 "ExternalId" = true := hcm4 _ (hcm3 _ hself2)
  have hm4 : hasColumn t4 "EmployeeId" = true := hcm4 _ hself3
  have ha4 : hasColumn t4 "AuthenticationMethod" = true := hself4
  obtain ⟨hlk5, hix5, him5, -⟩ :=
    stepState_createIndex_users_inv db4 db5 "IX_Users_ExternalId" "ExternalId" t4
      hncE hlk4 hs5
  obtain ⟨hlk6, hix6, him6, -⟩ :=
    stepState_createIndex_users_inv db5 db6 "IX_Users_EmployeeId" "EmployeeId" t4
      hncM hlk5 hs6
  obtain ⟨hlk7, hix7, him7, -⟩ :=
    stepState_createIndex_users_inv db6 db7 "IX_Users_AuthenticationMethod"
      "AuthenticationMethod" t4 hncA hlk6 hs7
  obtain ⟨i, hfi, hdb8eq⟩ :=
    stepState_update_users_inv db7 db8 "AuthenticationMethod" "Local" t4 hncA hlk7 hs8
  have hfinal : (runLoop db 1 migration_commands).db =
      updateTable db7 "Users" (backfillTable t4 i "Local") := by
    simp only [migration_commands]
    rw [hdb1, hdb2, hdb3, hdb4, hdb5, hdb6, hdb7, hdb8]
    exact hdb8eq ▸ rfl
  refine ⟨t, t4, cs4, i, hlk0, hext4, hmem4, hd4, he4, hm4, ha4, hfi, ?_, ?_, ?_, ?_⟩
  · rw [hfinal, hasIndexName_updateTable]
    exact him7 _ (him6 _ hix5)
  · rw [hfinal, hasIndexName_updateTable]
    exact him7 _ hix6
  · rw [hfinal, hasIndexName_updateTable]
    exact hix7
  · rw [hfinal]
    exact lookupTable_updateTable db7 "Users" t4 _ hlk7

/-! ### The claims -/

/-- Claim C4: the migration applies exactly the fixed command list of
migrate_db.py lines 23-32, in order — four ALTER TABLE statements adding
TEXT columns to Users (DisplayName, ExternalId, EmployeeId nullable;
AuthenticationMethod NOT NULL DEFAULT Local), then three CREATE INDEX
statements on ExternalId, EmployeeId and AuthenticationMethod, then one
backfill UPDATE — eight commands in total, all against the Users table. -/
theorem spec_C4 :
    migration_commands =
      [ Cmd.addColumn "Users" ⟨"DisplayName", "TEXT", false, none⟩,
        Cmd.addColumn "Users" ⟨"ExternalId", "TEXT", false, none⟩,
        Cmd.addColumn "Users" ⟨"EmployeeId", "TEXT", false, none⟩,
        Cmd.addColumn "Users" ⟨"AuthenticationMethod", "TEXT", true, some "Local"⟩,
        Cmd.createIndex "IX_Users_ExternalId" "Users" "ExternalId",
        Cmd.createIndex "IX_Users_EmployeeId" "Users" "EmployeeId",
        Cmd.createIndex "IX_Users_AuthenticationMethod" "Users" "AuthenticationMethod",
        Cmd.updateWhereNullOrEmpty "Users" "AuthenticationMethod" "Local" ] ∧
    migration_commands.length = 8 ∧
    ∀ c ∈ migration_commands, c.table = "Users" := by
  refine ⟨rfl, rfl, ?_⟩
  decide

/-- Claim C2, the code bug evaluated at its failing input: when workbot.db
exists but sqlite3.connect raises (for instance because workbot.db is a
directory), the except clause catches the error and would return False, but
the finally block then evaluates `if conn:` with the local conn never
assigned, so migrate_database raises UnboundLocalError to its caller instead
of returning False. -/
theorem spec_C2_bug :
    migrate_database ⟨true, false, db0⟩ = ⟨.raised "UnboundLocalError", [], db0⟩ := by
  rfl

/-- Claim C9: when workbot.db does not exist, migrate_database returns False
at once — the event trace is empty, so no connection is ever opened, and the
database value is untouched (the two error lines it prints first are console
output only). -/
theorem spec_C9 (w : World) (h : w.fileExists = false) :
    migrate_database w = ⟨.ret false, [], w.db⟩ := by
  simp [migrate_database, h]

/-- Witness for C9 at a concrete world. -/
theorem spec_C9_witness :
    migrate_database ⟨false, true, db0⟩ = ⟨.ret false, [], db0⟩ :=
  spec_C9 ⟨false, true, db0⟩ rfl

/-- Claim C10: the post-commit verification phase only reads.  When
migrate_database returns True, the loop ran with no fatal error, the commit
event is in the trace, and the final database is exactly the loop's result —
the state at the moment of the commit. -/
theorem spec_C10 (w : World) (h : (migrate_database w).outcome = .ret true) :
    (runLoop w.db 1 migration_commands).err = none ∧
    (migrate_database w).db = (runLoop w.db 1 migration_commands).db ∧
    Event.commit ∈ (migrate_database w).trace := by
  obtain ⟨hf, hc, he, hv, hdb, htr⟩ := migrate_true_elim w h
  refine ⟨he, hdb, ?_⟩
  rw [htr]
  simp

/-- Witness for C10 at a concrete world whose migration succeeds. -/
theorem spec_C10_witness :
    (migrate_database world0).outcome = .ret true ∧
    ((runLoop world0.db 1 migration_commands).err = none ∧
      (migrate_database world0).db = (runLoop world0.db 1 migration_commands).db ∧
      Event.commit ∈ (migrate_database world0).trace) :=
  ⟨by decide, spec_C10 world0 (by decide)⟩

/-- Claim C6: the migration runs if and only if the console response,
stripped and lowercased, is exactly y or yes; for every other response the
script prints Migration cancelled and performs no database operation. -/
theorem spec_C6 (w : World) (response : String) :
    ((main_dispatch w response).migration.isSome = true ↔
      (normalizeResponse response = "y" ∨ normalizeResponse response = "yes")) ∧
    (¬(normalizeResponse response = "y" ∨ normalizeResponse response = "yes") →
      main_dispatch w response = ⟨none, ["Migration cancelled."], w.db⟩) := by
  cases hcond : (normalizeResponse response == "y" || normalizeResponse response == "yes") with
  | true =>
    have hor : normalizeResponse response = "y" ∨ normalizeResponse response = "yes" := by
      rcases Bool.or_eq_true_iff.mp hcond with h | h
      · exact Or.inl (eq_of_beq h)
      · exact Or.inr (eq_of_beq h)
    constructor
    · simp [main_dispatch, hcond, hor]
    · intro hn
      exact absurd hor hn
  | false =>
    have hnor : ¬(normalizeResponse response = "y" ∨ normalizeResponse response = "yes") := by
      intro hor
      rcases hor with h | h <;> simp [h] at hcond
    constructor
    · simp [main_dispatch, hcond, hnor]
    · intro _
      simp [main_dispatch, hcond]

theorem migrate_nofatal_trace (w : World) (hf : w.fileExists = true) (hc : w.connects = true)
    (he : (runLoop w.db 1 migration_commands).err = none) :
    (migrate_database w).trace =
      .openConn :: ((runLoop w.db 1 migration_commands).trace ++ [.commit, .closeConn]) := by
  cases hv : verifyPhase (runLoop w.db 1 migration_commands).db with
  | ok u =>
    cases u
    simp [migrate_database, hf, hc, he, hv]
  | error e =>
    simp [migrate_database, hf, hc, he, hv]

theorem not_mem_stepsFrom (e : Event) (i k : Nat) (hne : ∀ j, e ≠ Event.execStep j) :
    e ∉ stepsFrom i k := by
  intro hm
  obtain ⟨j, hj⟩ := mem_stepsFrom _ _ _ hm
  exact hne j hj

theorem count_openConn_stepsFrom (i k : Nat) :
    List.count Event.openConn (stepsFrom i k) = 0 :=
  List.count_eq_zero.mpr (not_mem_stepsFrom _ _ _ (fun j h => by simp at h))

theorem count_closeConn_stepsFrom (i k : Nat) :
    List.count Event.closeConn (stepsFrom i k) = 0 :=
  List.count_eq_zero.mpr (not_mem_stepsFrom _ _ _ (fun j h => by simp at h))

/-- Claim C7: at most one connection is opened per run, every opened
connection is closed, and when anything at all happened the last event is
the close — the finally block runs on the success path, the fatal-step path
and the failed-verification path alike.  (On the paths with an empty trace —
missing file, or connect itself raising — no connection was ever opened.) -/
theorem spec_C7 (w : World) :
    (migrate_database w).trace.count Event.openConn ≤ 1 ∧
    (migrate_database w).trace.count Event.closeConn =
      (migrate_database w).trace.count Event.openConn ∧
    ((migrate_database w).trace = [] ∨
      (migrate_database w).trace.getLast? = some Event.closeConn) := by
  cases hf : w.fileExists with
  | false => simp [migrate_database, hf]
  | true =>
    cases hc : w.connects with
    | false => simp [migrate_database, hf, hc]
    | true =>
      obtain ⟨k, -, htr, -, -⟩ := runLoop_trace_spec w.db 1 migration_commands
      have hopen : List.count Event.openConn (runLoop w.db 1 migration_commands).trace = 0 := by
        rw [htr]
        exact count_openConn_stepsFrom 1 k
      have hclose : List.count Event.closeConn (runLoop w.db 1 migration_commands).trace = 0 := by
        rw [htr]
        exact count_closeConn_stepsFrom 1 k
      cases he : (runLoop w.db 1 migration_commands).err with
      | some e =>
        have htrace := migrate_fatal_eq w hf hc e he
        rw [htrace]
        refine ⟨?_, ?_, Or.inr ?_⟩
        · show List.count Event.openConn
            (Event.openConn :: ((runLoop w.db 1 migration_commands).trace ++ [Event.closeConn])) ≤ 1
          simp [List.count_cons, List.count_append, hopen]
        · show List.count Event.closeConn
              (Event.openConn :: ((runLoop w.db 1 migration_commands).trace ++ [Event.closeConn])) =
            List.count Event.openConn
              (Event.openConn :: ((runLoop w.db 1 migration_commands).trace ++ [Event.closeConn]))
          simp [List.count_cons, List.count_append, hopen, hclose]
        · show (Event.openConn ::
              ((runLoop w.db 1 migration_commands).trace ++ [Event.closeConn])).getLast? =
            some Event.closeConn
          rw [← List.cons_append]
          exact List.getLast?_concat _
      | none =>
        have htrace := migrate_nofatal_trace w hf hc he
        rw [htrace]
        refine ⟨?_, ?_, Or.inr ?_⟩
        · show List.count Event.openConn (Event.openConn ::
            ((runLoop w.db 1 migration_commands).trace ++ [Event.commit, Event.closeConn])) ≤ 1
          simp [List.count_cons, List.count_append, hopen]
        · show List.count Event.closeConn (Event.openConn ::
              ((runLoop w.db 1 migration_commands).trace ++ [Event.commit, Event.closeConn])) =
            List.count Event.openConn (Event.openConn ::
              ((runLoop w.db 1 migration_commands).trace ++ [Event.commit, Event.closeConn]))
          simp [List.count_cons, List.count_append, hopen, hclose]
        · show (Event.openConn :: ((runLoop w.db 1 migration_commands).trace ++
              [Event.commit, Event.closeConn])).getLast? = some Event.closeConn
          rw [show [Event.commit, Event.closeConn] =
              [Event.commit] ++ [Event.closeConn] from rfl,
            ← List.append_assoc, ← List.cons_append]
          exact List.getLast?_concat _

/-- Claim C3: when a step of the command list fails with a fatal error, the
run returns False, conn.commit() is never invoked, and the attempted steps
are exactly steps 1..k for the failing step k — no later command runs. -/
theorem spec_C3 (w : World) (hf : w.fileExists = true) (hc : w.connects = true)
    (e : SqlErr) (he : (runLoop w.db 1 migration_commands).err = some e) :
    (migrate_database w).outcome = .ret false ∧
    Event.commit ∉ (migrate_database w).trace ∧
    ∃ k, 1 ≤ k ∧ k ≤ 8 ∧
      (migrate_database w).trace =
        Event.openConn :: (stepsFrom 1 k ++ [Event.closeConn]) := by
  obtain ⟨k, hk, htr, -, hpos⟩ := runLoop_trace_spec w.db 1 migration_commands
  have hk1 : 1 ≤ k := hpos (by rw [he]; simp)
  have hk8 : k ≤ 8 := by
    simpa [migration_commands] using hk
  have heq := migrate_fatal_eq w hf hc e he
  rw [heq]
  refine ⟨rfl, ?_, k, hk1, hk8, ?_⟩
  · show Event.commit ∉
      Event.openConn :: ((runLoop w.db 1 migration_commands).trace ++ [Event.closeConn])
    rw [htr]
    simp only [List.mem_cons, List.mem_append, List.mem_singleton]
    rintro (h | h | h)
    · exact absurd h (by simp)
    · exact absurd h (not_mem_stepsFrom _ _ _ (fun j hj => by simp at hj))
    · exact absurd h (by simp)
  · show Event.openConn :: ((runLoop w.db 1 migration_commands).trace ++ [Event.closeConn]) =
      Event.openConn :: (stepsFrom 1 k ++ [Event.closeConn])
    rw [htr]

/-- Witness for C3: a database with no Users table fails fatally at step 1. -/
theorem spec_C3_witness :
    (migrate_database worldNoUsers).outcome = .ret false ∧
    Event.commit ∉ (migrate_database worldNoUsers).trace ∧
    ∃ k, 1 ≤ k ∧ k ≤ 8 ∧
      (migrate_database worldNoUsers).trace =
        Event.openConn :: (stepsFrom 1 k ++ [Event.closeConn]) :=
  spec_C3 worldNoUsers rfl rfl (.operational "no such table: Users") (by decide)

/-! ### Frame preservation (claim C8) -/

theorem tablesAgree_refl (l : List (String × Table)) : tablesAgree l l :=
  ⟨rfl, fun _ _ _ => rfl⟩

theorem tablesAgree_trans {a b c : List (String × Table)}
    (h1 : tablesAgree a b) (h2 : tablesAgree b c) : tablesAgree a c := by
  obtain ⟨hk1, he1⟩ := h1
  obtain ⟨hk2, he2⟩ := h2
  refine ⟨hk2.trans hk1, fun k hk hn => ?_⟩
  have hlen : b.length = a.length := by
    have := congrArg List.length hk1
    simpa using this
  have hkb : k < b.length := by omega
  have hkey : (nth defaultEntry b k).1 = (nth defaultEntry a k).1 := by
    have hb := nth_map Prod.fst "" defaultEntry b k hkb
    have ha := nth_map Prod.fst "" defaultEntry a k hk
    rw [← hb, ← ha, hk1]
  exact (he2 k hkb (by rw [hkey]; exact hn)).trans (he1 k hk hn)

theorem updateFirst_map_fst (l : List (String × Table)) (n : String) (t : Table) :
    (updateFirst l n t).map Prod.fst = l.map Prod.fst := by
  induction l with
  | nil => rfl
  | cons p ps ih =>
    by_cases hp : (lowerString p.1 == lowerString n) = true
    · simp [updateFirst, hp]
    · simp [updateFirst, hp, ih]

theorem updateFirst_nth_ne (l : List (String × Table)) (t : Table) (k : Nat)
    (hk : k < l.length)
    (hn : (lowerString (nth defaultEntry l k).1 == lowerString "Users") = false) :
    nth defaultEntry (updateFirst l "Users" t) k = nth defaultEntry l k := by
  induction l generalizing k with
  | nil => simp at hk
  | cons p ps ih =>
    by_cases hp : (lowerString p.1 == lowerString "Users") = true
    · cases k with
      | zero =>
        rw [show nth defaultEntry (p :: ps) 0 = p from rfl] at hn
        rw [hp] at hn
        exact absurd hn (by simp)
      | succ m => simp [updateFirst, hp, nth]
    · cases k with
      | zero => simp [updateFirst, hp, nth]
      | succ m =>
        simp only [updateFirst, hp, Bool.false_eq_true, if_false]
        exact ih m (Nat.lt_of_succ_lt_succ hk) hn

theorem tablesAgree_updateFirst (l : List (String × Table)) (t : Table) :
    tablesAgree l (updateFirst l "Users" t) :=
  ⟨updateFirst_map_fst l "Users" t, fun k hk hn => updateFirst_nth_ne l t k hk hn⟩

theorem framePreserved_refl (db : Database) : framePreserved db db :=
  ⟨tablesAgree_refl _, [], by simp, fun j hj => absurd hj (List.not_mem_nil j)⟩

theorem framePreserved_trans {a b c : Database}
    (h1 : framePreserved a b) (h2 : framePreserved b c) : framePreserved a c := by
  obtain ⟨hab, l1, hb, hl1⟩ := h1
  obtain ⟨hbc, l2, hc, hl2⟩ := h2
  refine ⟨tablesAgree_trans hab hbc, l1 ++ l2, ?_, ?_⟩
  · rw [hc, hb, List.append_assoc]
  · intro j hj
    rcases List.mem_append.mp hj with h | h
    · exact hl1 j h
    · exact hl2 j h

theorem framePreserved_updateTable (db : Database) (t : Table) :
    framePreserved db (updateTable db "Users" t) :=
  ⟨tablesAgree_updateFirst db.tables t, [], by simp [updateTable], fun j hj =>
    absurd hj (List.not_mem_nil j)⟩

theorem execCmd_framePreserved (db db1 : Database) (c : Cmd) (hu : c.table = "Users")
    (h : execCmd db c = .ok db1) : framePreserved db db1 := by
  cases c with
  | addColumn tbl col =>
    simp only [Cmd.table] at hu
    subst hu
    cases hlk : lookupTable db "Users" with
    | none => simp [execCmd, hlk] at h
    | some t =>
      by_cases hcol : hasColumn t col.name = true
      · simp [execCmd, hlk, hcol] at h
      · rw [Bool.not_eq_true] at hcol
        have hred : execCmd db (.addColumn "Users" col) =
            .ok (updateTable db "Users" (t.addColumnImpl col)) := by
          simp [execCmd, hlk, hcol]
        rw [hred] at h
        injection h with h
        subst h
        exact framePreserved_updateTable db _
  | createIndex ix tbl col =>
    simp only [Cmd.table] at hu
    subst hu
    by_cases hix : hasIndexName db ix = true
    · have hred : execCmd db (.createIndex ix "Users" col) = .ok db := by
        simp [execCmd, hix]
      rw [hred] at h
      injection h with h
      subst h
      exact framePreserved_refl db
    · rw [Bool.not_eq_true] at hix
      cases hlk : lookupTable db "Users" with
      | none => simp [execCmd, hix, hlk] at h
      | some t =>
        cases hcol : hasColumn t col with
        | false => simp [execCmd, hix, hlk, hcol] at h
        | true =>
          have hred : execCmd db (.createIndex ix "Users" col) =
              .ok (addIndex db ix "Users" col) := by
            simp [execCmd, hix, hlk, hcol]
          rw [hred] at h
          injection h with h
          subst h
          exact ⟨tablesAgree_refl _, [⟨ix, "Users", col⟩], rfl, fun j hj => by
            rw [List.mem_singleton.mp hj]⟩
  | updateWhereNullOrEmpty tbl col v =>
    simp only [Cmd.table] at hu
    subst hu
    cases hlk : lookupTable db "Users" with
    | none => simp [execCmd, hlk] at h
    | some t =>
      cases hfi : firstIdxWhere (fun c => lowerString c.name == lowerString col) t.columns with
      | none => simp [execCmd, hlk, hfi] at h
      | some i =>
        have hred : execCmd db (.updateWhereNullOrEmpty "Users" col v) =
            .ok (updateTable db "Users" (backfillTable t i v)) := by
          simp [execCmd, hlk, hfi]
        rw [hred] at h
        injection h with h
        subst h
        exact framePreserved_updateTable db _

theorem stepState_framePreserved (db db1 : Database) (c : Cmd) (hu : c.table = "Users")
    (h : stepState db c = some db1) : framePreserved db db1 := by
  cases hx : execCmd db c with
  | ok d =>
    have : stepState db c = some d := by simp [stepState, hx]
    rw [this] at h
    injection h with h
    subst h
    exact execCmd_framePreserved db d c hu hx
  | error e =>
    cases hd : isDuplicateColumnError e with
    | true =>
      have : stepState db c = some db := by simp [stepState, hx, hd]
      rw [this] at h
      injection h with h
      subst h
      exact framePreserved_refl db
    | false =>
      have : stepState db c = none := by simp [stepState, hx, hd]
      rw [this] at h
      exact absurd h (by simp)

theorem runLoop_framePreserved (db : Database) (i : Nat) (cs : List Cmd)
    (hall : ∀ c ∈ cs, c.table = "Users") :
    framePreserved db (runLoop db i cs).db := by
  induction cs generalizing db i with
  | nil => exact framePreserved_refl db
  | cons c cs ih =>
    have hc : c.table = "Users" := hall c (List.mem_cons_self c cs)
    have hall' : ∀ x ∈ cs, x.table = "Users" := fun x hx =>
      hall x (List.mem_cons_of_mem c hx)
    cases hx : execCmd db c with
    | ok db1 =>
      rw [runLoop_ok_step db db1 i c cs hx]
      exact framePreserved_trans
        (execCmd_framePreserved db db1 c hc hx) (ih db1 (i + 1) hall')
    | error e =>
      cases hd : isDuplicateColumnError e with
      | true =>
        rw [runLoop_skip_step db i c cs e hx hd]
        exact ih db (i + 1) hall'
      | false =>
        have : runLoop db i (c :: cs) = ⟨some e, db, [.execStep i]⟩ := by
          simp [runLoop, hx, hd]
        rw [this]
        exact framePreserved_refl db

/-- Claim C8: every statement of the migration targets only the Users table.
Whatever the run's outcome, every table entry not named Users is unchanged
(same names in the same order, same schema and rows), and every index the
run added is an index on Users. -/
theorem spec_C8 (w : World) : framePreserved w.db (migrate_database w).db := by
  cases hf : w.fileExists with
  | false =>
    have : (migrate_database w).db = w.db := by simp [migrate_database, hf]
    rw [this]
    exact framePreserved_refl w.db
  | true =>
    cases hc : w.connects with
    | false =>
      have : (migrate_database w).db = w.db := by simp [migrate_database, hf, hc]
      rw [this]
      exact framePreserved_refl w.db
    | true =>
      have hall : ∀ c ∈ migration_commands, c.table = "Users" := by decide
      cases he : (runLoop w.db 1 migration_commands).err with
      | some e =>
        rw [migrate_fatal_eq w hf hc e he]
        exact runLoop_framePreserved w.db 1 migration_commands hall
      | none =>
        have hdb : (migrate_database w).db = (runLoop w.db 1 migration_commands).db := by
          cases hv : verifyPhase (runLoop w.db 1 migration_commands).db with
          | ok u =>
            cases u
            simp [migrate_database, hf, hc, he, hv]
          | error e => simp [migrate_database, hf, hc, he, hv]
        rw [hdb]
        exact runLoop_framePreserved w.db 1 migration_commands hall

/-- Claim C5: for every well-formed database on which the run completes
successfully, every row of the final Users table carries a non-NULL,
non-empty AuthenticationMethod: a row whose cell at the AuthenticationMethod
position started NULL (including rows that predate the column) or empty ends
backfilled to Local, and every other row keeps its value. -/
theorem spec_C5 (w : World) (hwf : dbWf w.db = true)
    (h : (migrate_database w).outcome = .ret true) :
    C5Post w.db (migrate_database w).db := by
  obtain ⟨hf, hc, he, hv, hdb, -⟩ := migrate_true_elim w h
  obtain ⟨t, t4, cs, i, hlk0, hext, hmem, -, -, -, -, hfi, -, -, -, hlkF⟩ :=
    run_success_spec w.db he
  obtain ⟨hcols, hrows⟩ := hext
  have hwft : ∀ r ∈ t.rows, r.length = t.columns.length := by
    obtain ⟨nm, hmem2⟩ := findTable_mem w.db.tables "Users" t hlk0
    have hwfall : w.db.tables.all (fun p => p.2.wf) = true := hwf
    have htw : t.rows.all (fun r => r.length == t.columns.length) = true :=
      List.all_eq_true.mp hwfall (nm, t) hmem2
    intro r hr
    simpa using List.all_eq_true.mp htw r hr
  have hlen2 : (backfillTable t4 i "Local").rows.length = t.rows.length := by
    show (t4.rows.map (backfillRow i "Local")).length = t.rows.length
    rw [List.length_map, hrows, List.length_map]
  refine ⟨t, backfillTable t4 i "Local", i, hlk0, by rw [hdb]; exact hlkF, hlen2, hfi, ?_⟩
  intro k hk
  have hkt : k < t.rows.length := hlen2 ▸ hk
  have hk4 : k < t4.rows.length := by
    rw [hrows, List.length_map]
    exact hkt
  have hr0len : (nth [] t.rows k).length = t.columns.length := hwft _ (nth_mem _ _ _ hkt)
  have hfrow : nth [] (backfillTable t4 i "Local").rows k =
      backfillRow i "Local" ((nth [] t.rows k) ++ cs.map Column.dflt) := by
    show nth [] (t4.rows.map (backfillRow i "Local")) k = _
    rw [nth_map (backfillRow i "Local") [] [] t4.rows k hk4]
    congr 1
    rw [hrows, nth_map _ [] [] t.rows k hkt]
  have hfi4 : firstIdxWhere
      (fun c => lowerString c.name == lowerString "AuthenticationMethod")
      (t.columns ++ cs) = some i := by
    rw [← hcols]
    exact hfi
  rcases firstIdxWhere_append_cases _ _ _ _ hfi4 with hA | ⟨hA, j, hj, rfl⟩
  · obtain ⟨hilt, -⟩ := firstIdxWhere_spec _ displayNameCol t.columns i hA
    have hiR : i < (nth [] t.rows k).length := by
      rw [hr0len]
      exact hilt
    have hval : nth none ((nth [] t.rows k) ++ cs.map Column.dflt) i =
        nth none (nth [] t.rows k) i := nth_append_left _ _ _ _ hiR
    by_cases hne : isNullOrEmpty (nth none (nth [] t.rows k) i) = true
    · have hfin : nth none (nth [] (backfillTable t4 i "Local").rows k) i = some "Local" := by
        rw [hfrow]
        simp only [backfillRow, hval, hne, if_true]
        exact nth_setVal_eq none _ i (some "Local") (by rw [List.length_append]; omega)
      exact ⟨fun _ => hfin, fun hfalse => absurd (hne.symm.trans hfalse) (by decide),
        by rw [hfin]; decide⟩
    · rw [Bool.not_eq_true] at hne
      have hfin : nth none (nth [] (backfillTable t4 i "Local").rows k) i =
          nth none (nth [] t.rows k) i := by
        rw [hfrow]
        simp only [backfillRow, hval, hne, Bool.false_eq_true, if_false]
      exact ⟨fun htrue => absurd (hne.symm.trans htrue) (by decide), fun _ => hfin,
        by rw [hfin]; exact hne⟩
  · obtain ⟨hjlt, hpj⟩ := firstIdxWhere_spec _ displayNameCol cs j hj
    have hcin : nth displayNameCol cs j ∈ migrationCols := hmem _ (nth_mem _ _ _ hjlt)
    have hcauth : nth displayNameCol cs j = authMethodCol := by
      simp only [migrationCols, List.mem_cons, List.not_mem_nil, or_false] at hcin
      rcases hcin with h1 | h1 | h1 | h1
      · rw [h1] at hpj
        exact absurd hpj (by decide)
      · rw [h1] at hpj
        exact absurd hpj (by decide)
      · rw [h1] at hpj
        exact absurd hpj (by decide)
      · exact h1
    have hpadj : nth none (cs.map Column.dflt) j = some "Local" := by
      rw [nth_map Column.dflt none displayNameCol cs j hjlt, hcauth]
      rfl
    have hpre : nth none ((nth [] t.rows k) ++ cs.map Column.dflt)
        (t.columns.length + j) = some "Local" := by
      rw [← hr0len, nth_append_right]
      exact hpadj
    have hv0 : nth none (nth [] t.rows k) (t.columns.length + j) = none := by
      apply nth_oob
      rw [hr0len]
      omega
    have hfin : nth none
        (nth [] (backfillTable t4 (t.columns.length + j) "Local").rows k)
        (t.columns.length + j) = some "Local" := by
      rw [hfrow]
      have hcond : isNullOrEmpty (nth none ((nth [] t.rows k) ++ cs.map Column.dflt)
          (t.columns.length + j)) = false := by
        rw [hpre]
        decide
      simp only [backfillRow, hcond, Bool.false_eq_true, if_false]
      exact hpre
    refine ⟨fun _ => hfin, fun hfalse => ?_, by rw [hfin]; decide⟩
    rw [hv0] at hfalse
    exact absurd hfalse (by decide)

/-- Witness for C5 at a concrete well-formed world whose migration succeeds. -/
theorem spec_C5_witness :
    dbWf world0.db = true ∧ (migrate_database world0).outcome = .ret true ∧
    C5Post world0.db (migrate_database world0).db :=
  ⟨by decide, by decide, spec_C5 world0 (by decide) (by decide)⟩

/-! ### Idempotence (claim C1) -/

theorem execCmd_addColumn_dup (db : Database) (t : Table) (c : Column)
    (hlk : lookupTable db "Users" = some t) (hcol : hasColumn t c.name = true) :
    execCmd db (.addColumn "Users" c) =
      .error (.operational ("duplicate column name: " ++ c.name)) := by
  simp [execCmd, hlk, hcol]

theorem execCmd_createIndex_noop (db : Database) (ix tbl col : String)
    (hix : hasIndexName db ix = true) :
    execCmd db (.createIndex ix tbl col) = .ok db := by
  simp [execCmd, hix]

/-- Claim C1: a second run of the migration on the state a successful first
run left behind succeeds again, leaves the database exactly as it was, hits
the skippable duplicate-column error on each of the four ADD COLUMN steps,
and executes the three CREATE INDEX IF NOT EXISTS steps and the backfill
UPDATE as state-preserving no-ops. -/
theorem spec_C1 (w : World) (h : (migrate_database w).outcome = .ret true) : C1Post w := by
  obtain ⟨hf, hc, he, hv, hdb, -⟩ := migrate_true_elim w h
  obtain ⟨t, t4, cs, i, hlk0, hext, hmem, hd4, he4, hm4, ha4, hfi, hixE, hixM, hixA, hlkF⟩ :=
    run_success_spec w.db he
  unfold C1Post
  rw [hdb]
  set R := (runLoop w.db 1 migration_commands).db with hR
  have hcolD : hasColumn (backfillTable t4 i "Local") displayNameCol.name = true := by
    rw [hasColumn_backfillTable]
    exact hd4
  have hcolE : hasColumn (backfillTable t4 i "Local") externalIdCol.name = true := by
    rw [hasColumn_backfillTable]
    exact he4
  have hcolM : hasColumn (backfillTable t4 i "Local") employeeIdCol.name = true := by
    rw [hasColumn_backfillTable]
    exact hm4
  have hcolA : hasColumn (backfillTable t4 i "Local") authMethodCol.name = true := by
    rw [hasColumn_backfillTable]
    exact ha4
  have hdup1 := execCmd_addColumn_dup R _ displayNameCol hlkF hcolD
  have hdup2 := execCmd_addColumn_dup R _ externalIdCol hlkF hcolE
  have hdup3 := execCmd_addColumn_dup R _ employeeIdCol hlkF hcolM
  have hdup4 := execCmd_addColumn_dup R _ authMethodCol hlkF hcolA
  have hnoop5 := execCmd_createIndex_noop R "IX_Users_ExternalId" "Users" "ExternalId" hixE
  have hnoop6 := execCmd_createIndex_noop R "IX_Users_EmployeeId" "Users" "EmployeeId" hixM
  have hnoop7 := execCmd_createIndex_noop R "IX_Users_AuthenticationMethod" "Users"
    "AuthenticationMethod" hixA
  have hfiB : firstIdxWhere
      (fun c => lowerString c.name == lowerString "AuthenticationMethod")
      (backfillTable t4 i "Local").columns = some i := hfi
  have hup : execCmd R (.updateWhereNullOrEmpty "Users" "AuthenticationMethod" "Local") =
      .ok R := by
    have hred : execCmd R (.updateWhereNullOrEmpty "Users" "AuthenticationMethod" "Local") =
        .ok (updateTable R "Users" (backfillTable (backfillTable t4 i "Local") i "Local")) := by
      simp [execCmd, hlkF, hfiB]
    rw [hred, backfillTable_idem]
    rw [updateTable_self R "Users" _ hlkF]
  have hloop : (runLoop R 1 migration_commands).err = none ∧
      (runLoop R 1 migration_commands).db = R := by
    simp only [migration_commands]
    rw [runLoop_skip_step _ _ _ _ _ hdup1 (isDup_dupMsg _)]
    rw [runLoop_skip_step _ _ _ _ _ hdup2 (isDup_dupMsg _)]
    rw [runLoop_skip_step _ _ _ _ _ hdup3 (isDup_dupMsg _)]
    rw [runLoop_skip_step _ _ _ _ _ hdup4 (isDup_dupMsg _)]
    rw [runLoop_ok_step _ _ _ _ _ hnoop5]
    rw [runLoop_ok_step _ _ _ _ _ hnoop6]
    rw [runLoop_ok_step _ _ _ _ _ hnoop7]
    rw [runLoop_ok_step _ _ _ _ _ hup]
    simp [runLoop]
  have hl2 : (runLoop ({ w with db := R } : World).db 1 migration_commands).err = none :=
    hloop.1
  have hv2 : verifyPhase (runLoop ({ w with db := R } : World).db 1 migration_commands).db =
      .ok () := by
    have hre : (runLoop ({ w with db := R } : World).db 1 migration_commands).db = R :=
      hloop.2
    rw [hre]
    exact hv
  obtain ⟨ho2, hdb2⟩ := migrate_true_intro { w with db := R } hf hc hl2 hv2
  exact ⟨ho2, hdb2.trans hloop.2,
    ⟨hdup1, hdup2, hdup3, hdup4⟩,
    ⟨by decide, by decide, by decide, by decide⟩,
    ⟨hnoop5, hnoop6, hnoop7, hup⟩⟩

/-- Witness for C1 at a concrete world whose first run succeeds. -/
theorem spec_C1_witness :
    (migrate_database world0).outcome = .ret true ∧ C1Post world0 :=
  ⟨by decide, spec_C1 world0 (by decide)⟩

end Workbot
